import Mathlib

/-!
Verification of the AI-assisted workflow refinement pipeline of cc-wf-studio.

The development shallowly embeds the relevant TypeScript sources:
* the workflow diff engine (`computeWorkflowDiff` and its helpers),
* the refinement service (`resolveSkillPaths`, `validateSubAgentFlowNodes`,
  the post-parse stage of `refineSubAgentFlow`, the clarification classifier
  `isClarificationMessage` / `extractClarificationMessage` and the
  classification step of `refineWorkflow`),
* the process runner (`executeClaudeCodeCLI` event handlers,
  `cancelGeneration`, `cancelRefinement`).

JavaScript dynamic values that flow through `JSON.stringify` / property
accesses are modelled by an explicit JSON value type `Json`; JS `Map` and
`Set` are modelled by association lists with JS insertion-order semantics.
-/

/-! ## JSON values

Node `data` payloads are dynamic JS values.  The code under verification
only consumes them through `JSON.stringify`, property access and object
spread, so a standard JSON value tree is a faithful model.  Numbers are
modelled as integers: every numeric literal the pipeline manipulates
(positions, port counts) is integral, and no claim depends on float
formatting. -/
inductive Json where
  | null : Json
  | bool (b : Bool) : Json
  | num (n : Int) : Json
  | str (s : String) : Json
  | arr (elems : List Json) : Json
  | obj (fields : List (String × Json)) : Json

/-- Escape a character sequence the way `JSON.stringify` escapes string
contents (quote, backslash and the common control characters; other
characters are passed through). -/
def escapeJsonChars : List Char → String
  | [] => ""
  | c :: cs =>
    (if c = '"' then ("\\\"")
     else if c = '\\' then ("\\\\")
     else if c = '\n' then ("\\n")
     else if c = '\t' then ("\\t")
     else if c = '\r' then ("\\r")
     else String.mk [c]) ++ escapeJsonChars cs

/-- Quote a string as a JSON string literal. -/
def quoteJsonString (s : String) : String :=
  ("\"") ++ escapeJsonChars s.data ++ ("\"")

mutual

/-- Serialization of a JSON value, mirroring `JSON.stringify` with no
indentation: keys keep their object order, no added whitespace. -/
def Json.serialize : Json → String
  | .null => ("null")
  | .bool b => if b then ("true") else ("false")
  | .num n => toString n
  | .str s => quoteJsonString s
  | .arr elems => ("[") ++ String.intercalate (",") (serializeElems elems) ++ ("]")
  | .obj fields => ("\x7b") ++ String.intercalate (",") (serializeFields fields) ++ ("\x7d")

/-- Serialize the elements of a JSON array. -/
def serializeElems : List Json → List String
  | [] => []
  | j :: js => Json.serialize j :: serializeElems js

/-- Serialize the fields of a JSON object. -/
def serializeFields : List (String × Json) → List String
  | [] => []
  | (k, v) :: fs => (quoteJsonString k ++ (":") ++ Json.serialize v) :: serializeFields fs

end

/-! ## JS `Map` and `Set` on string keys

`new Map()` with `map.set`, `map.has`, `map.get` and for-of iteration:
insertion order is preserved, `set` on an existing key overwrites the value
in place.  `new Set(xs)` keeps the first occurrence of each element in
order. -/

/-- JS `map.set k v`: overwrite in place when the key exists, append
otherwise. -/
def mapSet (m : List (String × α)) (k : String) (v : α) : List (String × α) :=
  if m.any (fun p => p.1 == k) then
    m.map (fun p => if p.1 == k then (k, v) else p)
  else m ++ [(k, v)]

/-- JS `map.has k`. -/
def hasKey (m : List (String × α)) (k : String) : Bool :=
  m.any (fun p => p.1 == k)

/-- JS `map.get k` (`undefined` becomes `none`). -/
def getKey (m : List (String × α)) (k : String) : Option α :=
  (m.find? (fun p => p.1 == k)).map (fun p => p.2)

/-- Build a JS `Map` from a list of key/value pairs via repeated `set`. -/
def buildMap (l : List (String × α)) : List (String × α) :=
  l.foldl (fun m p => mapSet m p.1 p.2) []

/-- JS `new Set(l)` contents in iteration order: first occurrences. -/
def dedupFirst (l : List String) : List String :=
  l.foldl (fun acc k => if acc.contains k then acc else acc ++ [k]) []

/-! ## Workflow diff engine

Embeds `computeWorkflowDiff` and its helpers (`getNodeName`, `makeEdgeKey`,
`makeWorkflowEdgeKey`) from the webview diff module.  The baseline side is
a React Flow graph (`Node[]` / `Edge[]`), the proposed side is the shared
`Workflow` message shape. -/

/-- React Flow `Node`: `type` is optional in React Flow, `data` is a dynamic
payload.  `position` is carried to witness that the diff ignores it. -/
structure RFNode where
  id : String
  type? : Option String
  position : Int × Int
  data : Json

/-- React Flow `Edge`: `sourceHandle` / `targetHandle` may be absent. -/
structure RFEdge where
  source : String
  target : String
  sourceHandle : Option String
  targetHandle : Option String

/-- Node of the proposed `Workflow` (shared message type): `type` is a
required string, `data` a dynamic payload. -/
structure WfNode where
  id : String
  type : String
  position : Int × Int
  data : Json

/-- Connection of the proposed `Workflow`: `from`/`to` node ids and ports.
`from` is a Lean keyword, so the fields are suffixed with an underscore. -/
structure WfConn where
  from_ : String
  to_ : String
  fromPort : String
  toPort : String

/-- The proposed workflow as consumed by the diff engine. -/
structure WorkflowMsg where
  id : String
  name : String
  nodes : List WfNode
  connections : List WfConn

/-- Entry of the diff summary node lists: `{ id, name, type }`. -/
structure DiffEntry where
  id : String
  name : String
  type : String
deriving DecidableEq

/-- `WorkflowDiffSummary` of the diff module. -/
structure WorkflowDiffSummary where
  nameChange : Option (String × String)
  addedNodes : List DiffEntry
  removedNodes : List DiffEntry
  modifiedNodes : List DiffEntry
  addedConnections : Nat
  removedConnections : Nat
  totalChanges : Nat
  isNewWorkflow : Bool

/-- A `description` string field of a data payload when present and truthy
(the empty string is falsy in JS).  A non-string `description` is outside
the parsed-workflow data contract and is treated as absent. -/
def descriptionOf (data : Json) : Option String :=
  match data with
  | Json.obj fields =>
    match getKey fields ("description") with
    | some (Json.str s) => if s == ("") then none else some s
    | _ => none
  | _ => none

/-- `getNodeName`: `node.data?.description || node.id`. -/
def getNodeName (node : RFNode) : String :=
  (descriptionOf node.data).getD node.id

/-- Name of an incoming workflow node: `node.data?.description || node.id`. -/
def wfNodeName (node : WfNode) : String :=
  (descriptionOf node.data).getD node.id

/-- `makeEdgeKey`: composite key of a React Flow edge; absent handles
default to the empty string. -/
def makeEdgeKey (edge : RFEdge) : String :=
  edge.source ++ (":") ++ (edge.sourceHandle.getD ("")) ++ ("→") ++
    edge.target ++ (":") ++ (edge.targetHandle.getD (""))

/-- `makeWorkflowEdgeKey`: composite key of a proposed connection. -/
def makeWorkflowEdgeKey (conn : WfConn) : String :=
  conn.from_ ++ (":") ++ conn.fromPort ++ ("→") ++ conn.to_ ++ (":") ++ conn.toPort

/-- Value stored in `incomingNodeMap`: id, type, display name and the
serialized data payload. -/
structure IncomingEntry where
  id : String
  type : String
  name : String
  data : String

/-- The `incomingNodeMap` entry built for one incoming node. -/
def mkIncomingEntry (node : WfNode) : IncomingEntry :=
  { id := node.id, type := node.type, name := wfNodeName node,
    data := Json.serialize node.data }

/-- `currentNodeMap`: baseline nodes keyed by id. -/
def currentNodeMapOf (currentNodes : List RFNode) : List (String × RFNode) :=
  buildMap (currentNodes.map (fun node => (node.id, node)))

/-- `incomingNodeMap`: incoming nodes keyed by id. -/
def incomingNodeMapOf (incomingWorkflow : WorkflowMsg) : List (String × IncomingEntry) :=
  buildMap (incomingWorkflow.nodes.map (fun node => (node.id, mkIncomingEntry node)))

/-- Added nodes: in incoming but not in current. -/
def addedNodesOf (currentNodes : List RFNode) (incomingWorkflow : WorkflowMsg) : List DiffEntry :=
  (incomingNodeMapOf incomingWorkflow).filterMap (fun p =>
    if hasKey (currentNodeMapOf currentNodes) p.1 then none
    else some { id := p.1, name := p.2.name, type := p.2.type })

/-- Removed nodes: in current but not in incoming.  A missing or empty
baseline `type` renders as `"unknown"` (JS `node.type || 'unknown'`). -/
def removedNodesOf (currentNodes : List RFNode) (incomingWorkflow : WorkflowMsg) : List DiffEntry :=
  (currentNodeMapOf currentNodes).filterMap (fun p =>
    if hasKey (incomingNodeMapOf incomingWorkflow) p.1 then none
    else some { id := p.1, name := getNodeName p.2,
                type := match p.2.type? with
                        | some t => if t == ("") then ("unknown") else t
                        | none => ("unknown") })

/-- Modified nodes: in both maps with differing serialized data. -/
def modifiedNodesOf (currentNodes : List RFNode) (incomingWorkflow : WorkflowMsg) : List DiffEntry :=
  (incomingNodeMapOf incomingWorkflow).filterMap (fun p =>
    match getKey (currentNodeMapOf currentNodes) p.1 with
    | some currentNode =>
      if Json.serialize currentNode.data != p.2.data then
        some { id := p.1, name := p.2.name, type := p.2.type }
      else none
    | none => none)

/-- Iteration order of `new Set(currentEdges.map(makeEdgeKey))`. -/
def currentEdgeKeysOf (currentEdges : List RFEdge) : List String :=
  dedupFirst (currentEdges.map makeEdgeKey)

/-- Iteration order of `new Set(connections.map(makeWorkflowEdgeKey))`. -/
def incomingEdgeKeysOf (incomingWorkflow : WorkflowMsg) : List String :=
  dedupFirst (incomingWorkflow.connections.map makeWorkflowEdgeKey)

/-- Count of incoming edge keys absent from the current edge key set. -/
def addedConnectionsOf (currentEdges : List RFEdge) (incomingWorkflow : WorkflowMsg) : Nat :=
  ((incomingEdgeKeysOf incomingWorkflow).filter
    (fun key => !((currentEdgeKeysOf currentEdges).contains key))).length

/-- Count of current edge keys absent from the incoming edge key set. -/
def removedConnectionsOf (currentEdges : List RFEdge) (incomingWorkflow : WorkflowMsg) : Nat :=
  ((currentEdgeKeysOf currentEdges).filter
    (fun key => !((incomingEdgeKeysOf incomingWorkflow).contains key))).length

/-- `computeWorkflowDiff`, assembled exactly as in the source: the
`isNewWorkflow` heuristic, the name change pair, the three node lists from
the two id-keyed maps, and the two set-difference connection counts summed
into `totalChanges`. -/
def computeWorkflowDiff (currentNodes : List RFNode) (currentEdges : List RFEdge)
    (currentName : String) (incomingWorkflow : WorkflowMsg) : WorkflowDiffSummary :=
  let isNewWorkflow :=
    decide (currentNodes.length ≤ 2) &&
    currentNodes.all (fun n => n.type? == some ("start") || n.type? == some ("end")) &&
    (currentEdges.length == 0)
  let nameChange :=
    if currentName != incomingWorkflow.name then some (currentName, incomingWorkflow.name)
    else none
  let addedNodes := addedNodesOf currentNodes incomingWorkflow
  let removedNodes := removedNodesOf currentNodes incomingWorkflow
  let modifiedNodes := modifiedNodesOf currentNodes incomingWorkflow
  let addedConnections := addedConnectionsOf currentEdges incomingWorkflow
  let removedConnections := removedConnectionsOf currentEdges incomingWorkflow
  { nameChange := nameChange,
    addedNodes := addedNodes,
    removedNodes := removedNodes,
    modifiedNodes := modifiedNodes,
    addedConnections := addedConnections,
    removedConnections := removedConnections,
    totalChanges :=
      (if nameChange.isSome then 1 else 0) +
      addedNodes.length + removedNodes.length + modifiedNodes.length +
      addedConnections + removedConnections,
    isNewWorkflow := isNewWorkflow }

/-! ## Refinement service: skill path resolution and nested-flow validation

Embeds `resolveSkillPaths`, `validateSubAgentFlowNodes` and the post-parse
stage of `refineSubAgentFlow` from the workflow refinement service.  These
functions consume the `workflow-definition` node shape, whose `data` is a
JS object; the object is modelled by its field list. -/

/-- Catalogue entry (`SkillReference`): name, description, scope
(`personal`/`project`), resolved path and validation status. -/
structure SkillReference where
  name : String
  description : String
  scope : String
  skillPath : String
  validationStatus : String

/-- Node of the `workflow-definition` `Workflow` shape. -/
structure WfdNode where
  id : String
  type : String
  data : List (String × Json)

/-- Connection of the `workflow-definition` `Workflow` shape. -/
structure WfdConn where
  id : String
  from_ : String
  to_ : String
  fromPort : String
  toPort : String

/-- The `workflow-definition` `Workflow`: timestamps are modelled as
naturals (`Date` values never influence the logic under verification). -/
structure WorkflowD where
  id : String
  name : String
  version : String
  nodes : List WfdNode
  connections : List WfdConn
  createdAt : Nat
  updatedAt : Nat

/-- String field of a data object, when present with a string value. -/
def dataFieldStr (fields : List (String × Json)) (k : String) : Option String :=
  match getKey fields k with
  | some (Json.str s) => some s
  | _ => none

/-- JS strict equality `s === field` between a catalogue string and a data
field: true exactly when the field is present, is a string, and is equal. -/
def jFieldEqStr (fields : List (String × Json)) (k : String) (s : String) : Bool :=
  match getKey fields k with
  | some (Json.str t) => t == s
  | _ => false

/-- Predicate of `availableSkills.find(...)`: exact (name, scope) match
between a catalogue entry and a skill node's data. -/
def skillMatches (skillData : List (String × Json)) (skill : SkillReference) : Bool :=
  jFieldEqStr skillData ("name") skill.name && jFieldEqStr skillData ("scope") skill.scope

/-- `resolveSkillPaths`: map over the nodes; non-skill nodes pass through
unchanged; a skill node is re-stamped from the first catalogue entry with
matching (name, scope) — path and the entry's own validation status — or
marked `missing` when no entry matches.  The object spread keeps existing
field order and appends new fields, which is what `mapSet` does. -/
def resolveSkillPaths (workflow : WorkflowD) (availableSkills : List SkillReference) : WorkflowD :=
  let resolvedNodes := workflow.nodes.map (fun node =>
    if node.type != ("skill") then node
    else
      let skillData := node.data
      match availableSkills.find? (fun skill => skillMatches skillData skill) with
      | some matchedSkill =>
        let stamped :=
          mapSet (mapSet skillData ("skillPath") (Json.str matchedSkill.skillPath))
            ("validationStatus") (Json.str matchedSkill.validationStatus)
        { node with data := stamped }
      | none =>
        { node with data := mapSet skillData ("validationStatus") (Json.str ("missing")) })
  { workflow with nodes := resolvedNodes }

/-- Inner workflow fragment of a sub-agent flow: `nodes` and `connections`
only. -/
structure InnerWorkflow where
  nodes : List WfdNode
  connections : List WfdConn

/-- `SUBAGENTFLOW_PROHIBITED_NODE_TYPES`. -/
def SUBAGENTFLOW_PROHIBITED_NODE_TYPES : List String :=
  [("subAgent"), ("subAgentFlow"), ("askUserQuestion")]

/-- `SUBAGENTFLOW_MAX_NODES`. -/
def SUBAGENTFLOW_MAX_NODES : Nat := 30

/-- Result of `validateSubAgentFlowNodes`. -/
structure SubFlowValidation where
  valid : Bool
  prohibitedNodes : List String

/-- `validateSubAgentFlowNodes`: collect `"type (id)"` strings for every
node whose type is prohibited (the source pushes them in a loop, which is
the same as filter-then-map), valid iff none were collected. -/
def validateSubAgentFlowNodes (innerWorkflow : InnerWorkflow) : SubFlowValidation :=
  let prohibitedNodes :=
    (innerWorkflow.nodes.filter
      (fun node => SUBAGENTFLOW_PROHIBITED_NODE_TYPES.contains node.type)).map
      (fun node => node.type ++ (" (") ++ node.id ++ (")"))
  { valid := prohibitedNodes.length == 0, prohibitedNodes := prohibitedNodes }

/-- Error codes of the refinement results (union of the workflow and
sub-agent-flow variants). -/
inductive RefineErrorCode where
  | COMMAND_NOT_FOUND
  | TIMEOUT
  | PARSE_ERROR
  | VALIDATION_ERROR
  | PROHIBITED_NODE_TYPE
  | UNKNOWN_ERROR
deriving DecidableEq

/-- Typed error of a refinement result. -/
structure RefineError where
  code : RefineErrorCode
  message : String
  details : Option String
deriving DecidableEq

/-- Outcome of the sub-agent-flow refinement pipeline after the CLI call:
clarification, typed error, or the refined inner workflow. -/
inductive SubFlowOutcome where
  | clarified (clarificationMessage : String)
  | failed (error : RefineError)
  | succeeded (refinedInnerWorkflow : InnerWorkflow)

/-- The temporary `Workflow` object `refineSubAgentFlow` builds around a
fragment before calling `resolveSkillPaths` (timestamps modelled as 0). -/
def tempWorkflowOf (innerWorkflow : InnerWorkflow) : WorkflowD :=
  { id := ("temp"), name := ("temp"), version := ("1.0.0"),
    nodes := innerWorkflow.nodes, connections := innerWorkflow.connections,
    createdAt := 0, updatedAt := 0 }

/-- Steps 6–8 of `refineSubAgentFlow`, the stage that receives the parsed
inner workflow (the earlier steps — prompt construction, CLI execution,
clarification check and JSON parsing — have either produced this value or
already returned): prohibited-type validation first, then the node-count
cap, then skill path resolution when skills are in use. -/
def refineSubAgentFlowParsed (refinedInnerWorkflow : InnerWorkflow) (useSkills : Bool)
    (availableSkills : List SkillReference) : SubFlowOutcome :=
  let nodeValidation := validateSubAgentFlowNodes refinedInnerWorkflow
  if !nodeValidation.valid then
    .failed
      { code := .PROHIBITED_NODE_TYPE,
        message := ("Sub-Agent Flow cannot contain SubAgent, SubAgentFlow, or AskUserQuestion nodes"),
        details := some (("Prohibited nodes found: ") ++
          String.intercalate (", ") nodeValidation.prohibitedNodes) }
  else if refinedInnerWorkflow.nodes.length > SUBAGENTFLOW_MAX_NODES then
    .failed
      { code := .VALIDATION_ERROR,
        message := ("Sub-Agent Flow cannot exceed ") ++ toString SUBAGENTFLOW_MAX_NODES ++ (" nodes"),
        details := some (("Current count: ") ++ toString refinedInnerWorkflow.nodes.length) }
  else if useSkills then
    let resolvedWorkflow := resolveSkillPaths (tempWorkflowOf refinedInnerWorkflow) availableSkills
    .succeeded { refinedInnerWorkflow with nodes := resolvedWorkflow.nodes }
  else
    .succeeded refinedInnerWorkflow

/-! ## Output classifier

Embeds `isClarificationMessage`, `extractClarificationMessage`,
`parseClaudeCodeOutput` and the classification step (steps 5–6) of
`refineWorkflow`.  The JS regexes are fixed patterns over `\s`,
alternation, one optional group and literals; they are transcribed as
character-list matchers.  Case-insensitivity (`/i`) is modelled by
lowercasing the text; the patterns are already lower case. -/

/-- Character class `\s` of JS regexes (the members that can occur in CLI
output): space, tab, line feed, carriage return, vertical tab, form feed
and no-break space. -/
def jsWhitespaceChar (c : Char) : Bool :=
  c = ' ' || c = '\t' || c = '\n' || c = '\r' || c = '\x0b' || c = '\x0c' || c = ' '

/-- Drop a maximal run of whitespace (`\s*` when followed by a
non-whitespace token). -/
def dropWsStar : List Char → List Char
  | [] => []
  | c :: cs => if jsWhitespaceChar c then dropWsStar cs else c :: cs

/-- JS `String.prototype.trim`. -/
def trimChars (cs : List Char) : List Char :=
  (dropWsStar ((dropWsStar cs).reverse)).reverse

/-- JS `String.prototype.trim` on `String`. -/
def trimString (s : String) : String :=
  String.mk (trimChars s.data)

/-- Consume a literal at the head of the text, returning the rest. -/
def dropLit : List Char → List Char → Option (List Char)
  | [], cs => some cs
  | _ :: _, [] => none
  | p :: ps, c :: cs => if p == c then dropLit ps cs else none

/-- A literal matches at this position (the regex ends with it, so the
rest of the text is unconstrained). -/
def hasLitAt (lit : String) (cs : List Char) : Bool :=
  (dropLit lit.data cs).isSome

/-- An alternation of literals matches at this position. -/
def altLitsAt (alts : List String) (cs : List Char) : Bool :=
  alts.any (fun a => hasLitAt a cs)

/-- `\s+`: one whitespace character then a maximal run.  All uses are
followed by a literal starting with a non-whitespace character, so the
maximal run is exactly what the backtracking regex settles on. -/
def dropWs1 : List Char → Option (List Char)
  | [] => none
  | c :: cs => if jsWhitespaceChar c then some (dropWsStar cs) else none

/-- Pattern `I need to understand`. -/
def patINeedAt (cs : List Char) : Bool :=
  hasLitAt ("i need to understand") cs

/-- Pattern `could you (please\s+)?(clarify|specify|tell me more)`. -/
def patCouldYouAt (cs : List Char) : Bool :=
  match dropLit ("could you ").data cs with
  | none => false
  | some rest =>
    altLitsAt [("clarify"), ("specify"), ("tell me more")] rest ||
      (match dropLit ("please").data rest with
       | none => false
       | some r2 =>
         match dropWs1 r2 with
         | none => false
         | some r3 => altLitsAt [("clarify"), ("specify"), ("tell me more")] r3)

/-- Pattern `ambiguous`. -/
def patAmbiguousAt (cs : List Char) : Bool :=
  hasLitAt ("ambiguous") cs

/-- Pattern `unclear`. -/
def patUnclearAt (cs : List Char) : Bool :=
  hasLitAt ("unclear") cs

/-- Pattern `could mean`. -/
def patCouldMeanAt (cs : List Char) : Bool :=
  hasLitAt ("could mean") cs

/-- Pattern `which (one|approach|option|method)`. -/
def patWhichAt (cs : List Char) : Bool :=
  match dropLit ("which ").data cs with
  | none => false
  | some rest => altLitsAt [("one"), ("approach"), ("option"), ("method")] rest

/-- Pattern `would you like me to`. -/
def patWouldYouLikeAt (cs : List Char) : Bool :=
  hasLitAt ("would you like me to") cs

/-- Pattern `please (clarify|specify)`. -/
def patPleaseAt (cs : List Char) : Bool :=
  match dropLit ("please ").data cs with
  | none => false
  | some rest => altLitsAt [("clarify"), ("specify")] rest

/-- Pattern `not sure (what|which|how)`. -/
def patNotSureAt (cs : List Char) : Bool :=
  match dropLit ("not sure ").data cs with
  | none => false
  | some rest => altLitsAt [("what"), ("which"), ("how")] rest

/-- Pattern `can you provide more (details|information)`. -/
def patCanYouProvideAt (cs : List Char) : Bool :=
  match dropLit ("can you provide more ").data cs with
  | none => false
  | some rest => altLitsAt [("details"), ("information")] rest

/-- `regex.test`: a position-matcher succeeds somewhere in the text. -/
def matchSomewhere (patAt : List Char → Bool) : List Char → Bool
  | [] => patAt []
  | c :: cs => patAt (c :: cs) || matchSomewhere patAt cs

/-- The fixed `clarificationPatterns` list, in source order. -/
def clarificationPatternList : List (List Char → Bool) :=
  [patINeedAt, patCouldYouAt, patAmbiguousAt, patUnclearAt, patCouldMeanAt,
   patWhichAt, patWouldYouLikeAt, patPleaseAt, patNotSureAt, patCanYouProvideAt]

/-- Scan for the earliest closing triple backtick and return the text after
it; the lazy `[\s\S]*?` of the fence regex selects exactly this
occurrence. -/
def afterTripleTick : List Char → Option (List Char)
  | [] => none
  | c :: cs =>
    if ("```".data).isPrefixOf (c :: cs) then some ((c :: cs).drop 3)
    else afterTripleTick cs

/-- The suffix returned by `afterTripleTick` never grows the text. -/
theorem afterTripleTick_length_le :
    ∀ (l r : List Char), afterTripleTick l = some r → r.length ≤ l.length := by
  intro l
  induction l with
  | nil => intro r h; simp [afterTripleTick] at h
  | cons c cs ih =>
    intro r h
    rw [afterTripleTick] at h
    split at h
    · cases h
      simp only [List.length_drop, List.length_cons]
      omega
    · exact Nat.le_trans (ih r h) (Nat.le_succ _)

/-- Recursion of `stripJsonFences`, made structural over a fuel bound: the
scan either keeps one character or removes a whole fenced block, so every
recursive call strictly shortens the text; fuel equal to the text length
(`afterTripleTick_length_le`) therefore never runs out, and the fuel-zero
fallback is unreachable from the wrapper. -/
def stripJsonFencesGo : Nat → List Char → List Char
  | 0, cs => cs
  | _ + 1, [] => []
  | fuel + 1, c :: cs =>
    if ("```json".data).isPrefixOf (c :: cs) then
      match afterTripleTick ((c :: cs).drop 7) with
      | some rest => stripJsonFencesGo fuel rest
      | none => c :: stripJsonFencesGo fuel cs
    else c :: stripJsonFencesGo fuel cs

/-- `output.replace(/```json[\s\S]*?```/g, '')`: remove every fenced JSON
block.  A fence opener without a closing triple backtick does not match and
scanning continues one character later, as the regex engine does. -/
def stripJsonFences (cs : List Char) : List Char :=
  stripJsonFencesGo cs.length cs

/-- `isClarificationMessage`: strip fenced JSON blocks, then test the
lowercased remainder against the fixed clarification patterns. -/
def isClarificationMessage (output : String) : Bool :=
  let textWithoutCodeBlocks := stripJsonFences output.data
  clarificationPatternList.any
    (fun patAt => matchSomewhere patAt (textWithoutCodeBlocks.map Char.toLower))

/-- There is a closing brace whose suffix is all whitespace (`\}\s*$` after
a greedy `[\s\S]*`). -/
def hasClosingBraceWsSuffix : List Char → Bool
  | [] => false
  | c :: cs => (c = '\x7d' && cs.all jsWhitespaceChar) || hasClosingBraceWsSuffix cs

/-- After a newline: `\s*` then `\{` then text ending in `\}\s*$`. -/
def opensJsonTail (cs : List Char) : Bool :=
  match dropWsStar cs with
  | c :: rest => c = '\x7b' && hasClosingBraceWsSuffix rest
  | [] => false

/-- `cleanedOutput.replace(/\n\s*\{[\s\S]*\}\s*$/g, '')`: the match is
anchored at the end, so replacing it keeps exactly the text before the
first newline that opens a trailing raw JSON object. -/
def stripTrailingJsonBlock : List Char → List Char
  | [] => []
  | c :: cs =>
    if c = '\n' && opensJsonTail cs then [] else c :: stripTrailingJsonBlock cs

/-- `extractClarificationMessage`: drop fenced JSON blocks, drop a trailing
raw JSON object, trim. -/
def extractClarificationMessage (output : String) : String :=
  String.mk (trimChars (stripTrailingJsonBlock (stripJsonFences output.data)))

/-- Content of the first fenced JSON block: text between the first
`` ```json `` opener that has a closing fence and that closing fence. -/
def takeUntilTripleTick : List Char → Option (List Char)
  | [] => none
  | c :: cs =>
    if ("```".data).isPrefixOf (c :: cs) then some []
    else (takeUntilTripleTick cs).map (fun content => c :: content)

/-- Scan for `` /```json\s*([\s\S]*?)\s*```/ ``: the first fence opener
followed by a closing fence; the captured content is trimmed by the caller
anyway, so the surrounding `\s*` needs no separate handling. -/
def findFencedJson : List Char → Option (List Char)
  | [] => none
  | c :: cs =>
    if ("```json".data).isPrefixOf (c :: cs) then
      match takeUntilTripleTick ((c :: cs).drop 7) with
      | some content => some content
      | none => findFencedJson cs
    else findFencedJson cs

/-- `parseClaudeCodeOutput`: prefer the fenced JSON block, else the whole
output; trim and parse.  `JSON.parse` is a host primitive, modelled as the
`jsonParse` parameter (`none` is the caught parse failure → `null`). -/
def parseClaudeCodeOutput (jsonParse : String → Option Json) (output : String) : Option Json :=
  let jsonString :=
    match findFencedJson output.data with
    | some content => String.mk content
    | none => output
  jsonParse (trimString jsonString)

/-- JS truthiness of a JSON value (`undefined` is handled by the callers as
an absent field). -/
def Json.truthy : Json → Bool
  | .null => false
  | .bool b => b
  | .num n => n != 0
  | .str s => s != ("")
  | .arr _ => true
  | .obj _ => true

/-- Truthiness of `value.k` for a parsed JSON value: absent fields and
non-object values give `undefined`, which is falsy. -/
def jsonFieldTruthy (j : Json) (k : String) : Bool :=
  match j with
  | Json.obj fields =>
    (match getKey fields k with
     | some v => v.truthy
     | none => false)
  | _ => false

/-- Outcome of the workflow refinement pipeline after the CLI call. -/
inductive RefinementOutcome where
  | clarified (clarificationMessage : String)
  | failed (error : RefineError)
  | succeeded (refinedWorkflow : Json)

/-- Steps 5–6 of `refineWorkflow` on a successful CLI output: the
clarification check runs first; only a non-clarification is parsed and
shape-checked (`id` / `nodes` / `connections` truthy).  The later steps —
skill resolution and semantic validation (steps 7–8) — are abstracted as
`finishRefinement`, and `JSON.parse` as `jsonParse`; the classification
theorems quantify over both, so nothing downstream can influence a
clarification result. -/
def refineWorkflowFromOutput (jsonParse : String → Option Json)
    (finishRefinement : Json → RefinementOutcome) (output : String) : RefinementOutcome :=
  if isClarificationMessage output then
    .clarified (extractClarificationMessage output)
  else
    match parseClaudeCodeOutput jsonParse output with
    | none =>
      .failed
        { code := .PARSE_ERROR,
          message := ("Failed to parse AI response. Please try again or rephrase your request"),
          details := some ("Failed to parse JSON from Claude Code output") }
    | some parsedOutput =>
      if !(jsonFieldTruthy parsedOutput ("id")) || !(jsonFieldTruthy parsedOutput ("nodes")) ||
          !(jsonFieldTruthy parsedOutput ("connections")) then
        .failed
          { code := .PARSE_ERROR,
            message := ("Refinement failed - AI output does not match Workflow format"),
            details := some ("Missing required workflow fields (id, nodes, or connections)") }
      else finishRefinement parsedOutput

/-! ## Process runner

Embeds the event handlers of `executeClaudeCodeCLI` and the two cancel
functions.  Node.js dispatches the `setTimeout` callback and the process
`data`/`error`/`exit` handlers sequentially on one event loop, so a run is
a fold of handler steps over an event trace; the promise's
first-resolution-wins latch is `resolveOnce`.  The `activeProcesses`
registry is the association of request ids to start times (the process
handle itself is only used for signalling, recorded as emitted
`SigAction`s). -/

/-- Error codes of `ClaudeCodeExecutionResult`. -/
inductive CliErrorCode where
  | COMMAND_NOT_FOUND
  | TIMEOUT
  | PARSE_ERROR
  | UNKNOWN_ERROR
deriving DecidableEq

/-- Error part of `ClaudeCodeExecutionResult`. -/
structure CliError where
  code : CliErrorCode
  message : String
  details : Option String
deriving DecidableEq

/-- `ClaudeCodeExecutionResult`. -/
structure CliResult where
  success : Bool
  output : Option String
  error : Option CliError
  executionTimeMs : Nat
deriving DecidableEq

/-- An event the Node.js event loop can deliver to one CLI execution,
tagged with the `Date.now()` value at delivery. -/
inductive ProcEvent where
  | stdoutChunk (chunk : String)
  | stderrChunk (chunk : String)
  | timerFire
  | procError (errCode : String) (errMessage : String)
  | procExit (code : Option Int)

/-- State of one `executeClaudeCodeCLI` call: the collected `stdout` and
`stderr` buffers, the `timedOut` flag, whether the timeout timer is still
armed (`clearTimeout` and firing both disarm it), the promise's resolution,
and the `activeProcesses` registry. -/
structure ExecState where
  stdoutBuf : String
  stderrBuf : String
  timedOut : Bool
  timerArmed : Bool
  resolved : Option CliResult
  registry : List (String × Nat)

/-- Resolving an already-resolved promise is a no-op. -/
def resolveOnce (s : ExecState) (r : CliResult) : ExecState :=
  if s.resolved.isSome then s else { s with resolved := some r }

/-- `activeProcesses.delete(requestId)` guarded by `if (requestId)`. -/
def deleteRegistry (registry : List (String × Nat)) : Option String → List (String × Nat)
  | some requestId => registry.filter (fun p => p.1 != requestId)
  | none => registry

/-- The `TIMEOUT` resolution value of the timeout handler. -/
def timeoutResult (timeoutMs executionTimeMs : Nat) : CliResult :=
  { success := false,
    output := none,
    error := some
      { code := .TIMEOUT,
        message := ("AI generation timed out after ") ++ toString (timeoutMs / 1000) ++
          (" seconds. Try simplifying your description."),
        details := some (("Timeout after ") ++ toString timeoutMs ++ ("ms")) },
    executionTimeMs := executionTimeMs }

/-- The resolution value for a process `error` event. -/
def procErrorResult (errCode errMessage : String) (executionTimeMs : Nat) : CliResult :=
  if errCode == ("ENOENT") then
    { success := false,
      output := none,
      error := some
        { code := .COMMAND_NOT_FOUND,
          message := ("Cannot connect to Claude Code - please ensure it is installed and running"),
          details := some errMessage },
      executionTimeMs := executionTimeMs }
  else
    { success := false,
      output := none,
      error := some
        { code := .UNKNOWN_ERROR,
          message := ("An unexpected error occurred. Please try again."),
          details := some errMessage },
      executionTimeMs := executionTimeMs }

/-- The resolution value for a process `exit` event: exit code 0 resolves
with the trimmed stdout, any other code (or a `null` code) resolves with
`UNKNOWN_ERROR` embedding the exit code and the whole captured stderr. -/
def procExitResult (code : Option Int) (stdoutBuf stderrBuf : String)
    (executionTimeMs : Nat) : CliResult :=
  if code == some 0 then
    { success := true, output := some (trimString stdoutBuf), error := none,
      executionTimeMs := executionTimeMs }
  else
    { success := false,
      output := none,
      error := some
        { code := .UNKNOWN_ERROR,
          message := ("Generation failed - please try again or rephrase your description"),
          details := some (("Exit code: ") ++
            (match code with | some c => toString c | none => ("null")) ++
            (", stderr: ") ++ stderrBuf) },
      executionTimeMs := executionTimeMs }

/-- One handler dispatch of `executeClaudeCodeCLI`: `data` handlers append
to the buffers; the timeout handler (when its timer is still armed) sets
`timedOut`, kills the process, unregisters and resolves `TIMEOUT`; the
`error` and `exit` handlers clear the timer, unregister, and — unless
already timed out — resolve their result. -/
def execStep (requestId : Option String) (startTime timeoutMs : Nat)
    (s : ExecState) (now : Nat) : ProcEvent → ExecState
  | .stdoutChunk chunk => { s with stdoutBuf := s.stdoutBuf ++ chunk }
  | .stderrChunk chunk => { s with stderrBuf := s.stderrBuf ++ chunk }
  | .timerFire =>
    if !s.timerArmed then s
    else
      let s1 := { s with timedOut := true, timerArmed := false,
                         registry := deleteRegistry s.registry requestId }
      resolveOnce s1 (timeoutResult timeoutMs (now - startTime))
  | .procError errCode errMessage =>
    let s1 := { s with timerArmed := false,
                       registry := deleteRegistry s.registry requestId }
    if s1.timedOut then s1
    else resolveOnce s1 (procErrorResult errCode errMessage (now - startTime))
  | .procExit code =>
    let s1 := { s with timerArmed := false,
                       registry := deleteRegistry s.registry requestId }
    if s1.timedOut then s1
    else resolveOnce s1 (procExitResult code s.stdoutBuf s.stderrBuf (now - startTime))

/-- State right after `spawn`: empty buffers, timer armed, promise pending,
and — when a request id was supplied — the process registered before any
event can be dispatched. -/
def initExecState (requestId : Option String) (startTime : Nat) : ExecState :=
  { stdoutBuf := "", stderrBuf := "", timedOut := false, timerArmed := true,
    resolved := none,
    registry := match requestId with
                | some id => [(id, startTime)]
                | none => [] }

/-- Fold a trace of timed events through the handler dispatch. -/
def runExecEvents (requestId : Option String) (startTime timeoutMs : Nat)
    (s : ExecState) (events : List (Nat × ProcEvent)) : ExecState :=
  events.foldl (fun st e => execStep requestId startTime timeoutMs st e.1 e.2) s

/-- Result of `cancelGeneration` / `cancelRefinement`. -/
structure CancelResult where
  cancelled : Bool
  executionTimeMs : Option Nat
deriving DecidableEq

/-- Signals a cancel call emits: an immediate `SIGTERM`, and a `SIGKILL`
scheduled after a grace period, sent only if the process is still alive
then. -/
inductive SigAction where
  | sigterm
  | sigkillAfterGraceIfAlive (graceMs : Nat)
deriving DecidableEq

/-- `cancelGeneration`: look up the live registry; absent ids report
`cancelled: false`; a live entry gets `SIGTERM`, a `SIGKILL` scheduled
after 500 ms, its registry entry removed, and reports the elapsed time. -/
def cancelGeneration (activeProcesses : List (String × Nat)) (requestId : String)
    (now : Nat) : CancelResult × List (String × Nat) × List SigAction :=
  match getKey activeProcesses requestId with
  | none => ({ cancelled := false, executionTimeMs := none }, activeProcesses, [])
  | some startTime =>
    let executionTimeMs := now - startTime
    ({ cancelled := true, executionTimeMs := some executionTimeMs },
     activeProcesses.filter (fun p => p.1 != requestId),
     [.sigterm, .sigkillAfterGraceIfAlive 500])

/-- `cancelRefinement`: transcribed separately from its own source body
(the two functions are near-duplicates in the service). -/
def cancelRefinement (activeProcesses : List (String × Nat)) (requestId : String)
    (now : Nat) : CancelResult × List (String × Nat) × List SigAction :=
  match getKey activeProcesses requestId with
  | none => ({ cancelled := false, executionTimeMs := none }, activeProcesses, [])
  | some startTime =>
    let executionTimeMs := now - startTime
    ({ cancelled := true, executionTimeMs := some executionTimeMs },
     activeProcesses.filter (fun p => p.1 != requestId),
     [.sigterm, .sigkillAfterGraceIfAlive 500])

/-! ## Lemmas about the JS map/set model -/

/-- Membership formulation of `hasKey`. -/
theorem hasKey_eq_true_iff (m : List (String × α)) (k : String) :
    hasKey m k = true ↔ k ∈ m.map Prod.fst := by
  simp only [hasKey, List.any_eq_true, List.mem_map]
  constructor
  · rintro ⟨p, hp, hb⟩
    exact ⟨p, hp, by simpa using hb⟩
  · rintro ⟨p, hp, hb⟩
    exact ⟨p, hp, by simp [hb]⟩

/-- `map.set` on a fresh key appends. -/
theorem mapSet_of_not_hasKey (m : List (String × α)) (k : String) (v : α)
    (h : hasKey m k = false) : mapSet m k v = m ++ [(k, v)] := by
  unfold mapSet
  rw [show (m.any fun p => p.1 == k) = hasKey m k from rfl, h]
  simp

/-- Auxiliary accumulator form of `buildMap_eq_self`. -/
theorem buildMap_go (l : List (String × α)) : ∀ acc : List (String × α),
    ((acc ++ l).map Prod.fst).Nodup →
    l.foldl (fun m p => mapSet m p.1 p.2) acc = acc ++ l := by
  induction l with
  | nil => intro acc _; simp
  | cons p l ih =>
    intro acc hacc
    have hfresh : hasKey acc p.1 = false := by
      rw [← Bool.not_eq_true, hasKey_eq_true_iff]
      intro hmem
      have hnd := hacc
      rw [List.map_append, List.nodup_append] at hnd
      exact hnd.2.2 hmem (by simp)
    rw [List.foldl_cons, mapSet_of_not_hasKey _ _ _ hfresh]
    have := ih (acc ++ [p]) (by simpa using hacc)
    simpa using this

/-- Building a JS map from pairs with distinct keys yields those pairs. -/
theorem buildMap_eq_self (l : List (String × α)) (h : (l.map Prod.fst).Nodup) :
    buildMap l = l := by
  simpa using buildMap_go l [] (by simpa using h)

/-- `getKey` over a key/value projection of a list is `find?`. -/
theorem getKey_map_pair (l : List β) (key : β → String) (val : β → α) (k : String) :
    getKey (l.map (fun x => (key x, val x))) k = (l.find? (fun x => key x == k)).map val := by
  simp only [getKey, List.find?_map]
  rw [Option.map_map]
  rfl

/-- `hasKey` over a key/value projection of a list is `any`. -/
theorem hasKey_map_pair (l : List β) (key : β → String) (val : β → α) (k : String) :
    hasKey (l.map (fun x => (key x, val x))) k = l.any (fun x => key x == k) := by
  induction l with
  | nil => rfl
  | cons a l ih => simp only [hasKey, List.map_cons, List.any_cons] at ih ⊢; rw [ih]

/-- With distinct keys, `find?` by the key of a member returns that
member. -/
theorem find?_key_of_nodup (l : List β) (key : β → String) (h : (l.map key).Nodup)
    (x : β) (hx : x ∈ l) : l.find? (fun y => key y == key x) = some x := by
  induction l with
  | nil => cases hx
  | cons a l ih =>
    by_cases hax : key a = key x
    · have hx' : a = x := by
        rcases List.mem_cons.mp hx with h' | h'
        · exact h'.symm
        · exfalso
          have hmem : key x ∈ l.map key := List.mem_map_of_mem key h'
          rw [← hax] at hmem
          exact (List.nodup_cons.mp h).1 hmem
      rw [List.find?_cons_of_pos _ (by simp [hax])]
      rw [hx']
    · rw [List.find?_cons_of_neg _ (by simp [hax])]
      have hx' : x ∈ l := by
        rcases List.mem_cons.mp hx with h' | h'
        · exact absurd (h' ▸ rfl) hax
        · exact h'
      exact ih (List.nodup_cons.mp h).2 hx'

/-! ## Lemmas about the diff engine components -/

/-- `hasKey` over a projected pair list, membership form. -/
theorem hasKey_pair_iff (l : List β) (key : β → String) (val : β → α) (k : String) :
    hasKey (l.map (fun x => (key x, val x))) k = true ↔ ∃ x ∈ l, key x = k := by
  rw [hasKey_eq_true_iff, List.map_map]
  simp [Function.comp]

/-- `getKey` over a list keyed by a projection with identity values. -/
theorem getKey_pair_self (l : List β) (key : β → String) (k : String) :
    getKey (l.map (fun x => (key x, x))) k = l.find? (fun x => key x == k) := by
  induction l with
  | nil => rfl
  | cons a l ih =>
    simp only [List.map_cons, getKey, List.find?_cons] at ih ⊢
    cases hb : (key a == k) with
    | true => rfl
    | false => exact ih

/-- With distinct baseline ids, `currentNodeMap` holds the baseline nodes
keyed by id in order. -/
theorem currentNodeMapOf_eq (cur : List RFNode) (hd : (cur.map RFNode.id).Nodup) :
    currentNodeMapOf cur = cur.map (fun n => (n.id, n)) := by
  apply buildMap_eq_self
  rw [List.map_map]
  exact hd

/-- With distinct incoming ids, `incomingNodeMap` holds the incoming
entries keyed by id in order. -/
theorem incomingNodeMapOf_eq (inc : WorkflowMsg) (hi : (inc.nodes.map WfNode.id).Nodup) :
    incomingNodeMapOf inc = inc.nodes.map (fun n => (n.id, mkIncomingEntry n)) := by
  apply buildMap_eq_self
  rw [List.map_map]
  exact hi

/-- When every incoming id is a baseline id, no node is reported added. -/
theorem addedNodesOf_eq_nil (cur : List RFNode) (inc : WorkflowMsg)
    (hd : (cur.map RFNode.id).Nodup)
    (hids : inc.nodes.map WfNode.id = cur.map RFNode.id) :
    addedNodesOf cur inc = [] := by
  have hi : (inc.nodes.map WfNode.id).Nodup := hids ▸ hd
  unfold addedNodesOf
  rw [incomingNodeMapOf_eq inc hi, List.filterMap_eq_nil]
  intro p hp
  rcases List.mem_map.mp hp with ⟨n, hn, rfl⟩
  have hmem : n.id ∈ cur.map RFNode.id := by
    rw [← hids]
    exact List.mem_map_of_mem _ hn
  rcases List.mem_map.mp hmem with ⟨c, hc, hcid⟩
  have hk : hasKey (currentNodeMapOf cur) n.id = true := by
    rw [currentNodeMapOf_eq cur hd]
    exact (hasKey_pair_iff cur RFNode.id (fun c => c) n.id).mpr ⟨c, hc, hcid⟩
  simp [hk]

/-- When every baseline id is an incoming id, no node is reported
removed. -/
theorem removedNodesOf_eq_nil (cur : List RFNode) (inc : WorkflowMsg)
    (hd : (cur.map RFNode.id).Nodup)
    (hids : inc.nodes.map WfNode.id = cur.map RFNode.id) :
    removedNodesOf cur inc = [] := by
  have hi : (inc.nodes.map WfNode.id).Nodup := hids ▸ hd
  unfold removedNodesOf
  rw [currentNodeMapOf_eq cur hd, List.filterMap_eq_nil]
  intro p hp
  rcases List.mem_map.mp hp with ⟨c, hc, rfl⟩
  have hmem : c.id ∈ inc.nodes.map WfNode.id := by
    rw [hids]
    exact List.mem_map_of_mem _ hc
  rcases List.mem_map.mp hmem with ⟨n, hn, hnid⟩
  have hk : hasKey (incomingNodeMapOf inc) c.id = true := by
    rw [incomingNodeMapOf_eq inc hi]
    exact (hasKey_pair_iff inc.nodes WfNode.id mkIncomingEntry c.id).mpr ⟨n, hn, hnid⟩
  simp [hk]

/-- When both sides carry the same (id, serialized data) sequence, no node
is reported modified. -/
theorem modifiedNodesOf_eq_nil (cur : List RFNode) (inc : WorkflowMsg)
    (hd : (cur.map RFNode.id).Nodup)
    (hn : inc.nodes.map (fun n => (n.id, Json.serialize n.data)) =
          cur.map (fun n => (n.id, Json.serialize n.data))) :
    modifiedNodesOf cur inc = [] := by
  have hids : inc.nodes.map WfNode.id = cur.map RFNode.id := by
    have := congrArg (List.map Prod.fst) hn
    rwa [List.map_map, List.map_map] at this
  have hi : (inc.nodes.map WfNode.id).Nodup := hids ▸ hd
  unfold modifiedNodesOf
  rw [incomingNodeMapOf_eq inc hi, List.filterMap_eq_nil]
  intro p hp
  rcases List.mem_map.mp hp with ⟨n, hnmem, rfl⟩
  have hpair : (n.id, Json.serialize n.data) ∈
      cur.map (fun c => (c.id, Json.serialize c.data)) := by
    rw [← hn]
    exact List.mem_map_of_mem _ hnmem
  rcases List.mem_map.mp hpair with ⟨c, hc, hceq⟩
  have hcid : c.id = n.id := (Prod.mk.injEq _ _ _ _ ▸ hceq).1
  have hcdata : Json.serialize c.data = Json.serialize n.data :=
    (Prod.mk.injEq _ _ _ _ ▸ hceq).2
  have hget : getKey (currentNodeMapOf cur) n.id = some c := by
    rw [currentNodeMapOf_eq cur hd, getKey_pair_self]
    have hf := find?_key_of_nodup cur RFNode.id hd c hc
    rwa [hcid] at hf
  simp [hget, mkIncomingEntry, hcdata]

/-- Filtering a list by non-membership in itself keeps nothing. -/
theorem filter_not_contains_self_length (keys : List String) :
    (keys.filter (fun k => !(keys.contains k))).length = 0 := by
  rw [List.length_eq_zero, List.filter_eq_nil]
  intro k hk
  have hc : keys.contains k = true := List.elem_iff.mpr hk
  rw [hc]
  simp

/-- Projection: the name change pair of the diff summary. -/
theorem computeWorkflowDiff_nameChange (cur : List RFNode) (edges : List RFEdge)
    (name : String) (inc : WorkflowMsg) :
    (computeWorkflowDiff cur edges name inc).nameChange =
      (if name != inc.name then some (name, inc.name) else none) := rfl

/-- Projection: the added node list of the diff summary. -/
theorem computeWorkflowDiff_addedNodes (cur : List RFNode) (edges : List RFEdge)
    (name : String) (inc : WorkflowMsg) :
    (computeWorkflowDiff cur edges name inc).addedNodes = addedNodesOf cur inc := rfl

/-- Projection: the removed node list of the diff summary. -/
theorem computeWorkflowDiff_removedNodes (cur : List RFNode) (edges : List RFEdge)
    (name : String) (inc : WorkflowMsg) :
    (computeWorkflowDiff cur edges name inc).removedNodes = removedNodesOf cur inc := rfl

/-- Projection: the modified node list of the diff summary. -/
theorem computeWorkflowDiff_modifiedNodes (cur : List RFNode) (edges : List RFEdge)
    (name : String) (inc : WorkflowMsg) :
    (computeWorkflowDiff cur edges name inc).modifiedNodes = modifiedNodesOf cur inc := rfl

/-- Projection: the added connection count of the diff summary. -/
theorem computeWorkflowDiff_addedConnections (cur : List RFNode) (edges : List RFEdge)
    (name : String) (inc : WorkflowMsg) :
    (computeWorkflowDiff cur edges name inc).addedConnections =
      addedConnectionsOf edges inc := rfl

/-- Projection: the removed connection count of the diff summary. -/
theorem computeWorkflowDiff_removedConnections (cur : List RFNode) (edges : List RFEdge)
    (name : String) (inc : WorkflowMsg) :
    (computeWorkflowDiff cur edges name inc).removedConnections =
      removedConnectionsOf edges inc := rfl

/-- Projection: `totalChanges` as the sum of its six contributions. -/
theorem computeWorkflowDiff_totalChanges (cur : List RFNode) (edges : List RFEdge)
    (name : String) (inc : WorkflowMsg) :
    (computeWorkflowDiff cur edges name inc).totalChanges =
      (if (if name != inc.name then some (name, inc.name) else none).isSome then 1 else 0) +
      (addedNodesOf cur inc).length + (removedNodesOf cur inc).length +
      (modifiedNodesOf cur inc).length +
      addedConnectionsOf edges inc + removedConnectionsOf edges inc := rfl

/-- Projection: the `isNewWorkflow` heuristic of the diff summary. -/
theorem computeWorkflowDiff_isNewWorkflow (cur : List RFNode) (edges : List RFEdge)
    (name : String) (inc : WorkflowMsg) :
    (computeWorkflowDiff cur edges name inc).isNewWorkflow =
      (decide (cur.length ≤ 2) &&
       cur.all (fun n => n.type? == some ("start") || n.type? == some ("end")) &&
       (edges.length == 0)) := rfl

/-- C1: a proposed workflow that is identical to the baseline — the same
(id, serialized data) node sequence, the same connection key sequence and
the same name — yields a diff summary with `totalChanges = 0`, empty
added/removed/modified node lists, zero added and removed connection counts
and no name change.  (Baseline node ids are assumed unique, the stated
workflow invariant.) -/
theorem c1_identical_proposal_diff_empty (cur : List RFNode) (edges : List RFEdge)
    (currentName : String) (inc : WorkflowMsg)
    (hd : (cur.map RFNode.id).Nodup)
    (hn : inc.nodes.map (fun n => (n.id, Json.serialize n.data)) =
          cur.map (fun n => (n.id, Json.serialize n.data)))
    (he : inc.connections.map makeWorkflowEdgeKey = edges.map makeEdgeKey)
    (hname : inc.name = currentName) :
    (computeWorkflowDiff cur edges currentName inc).totalChanges = 0 ∧
    (computeWorkflowDiff cur edges currentName inc).addedNodes = [] ∧
    (computeWorkflowDiff cur edges currentName inc).removedNodes = [] ∧
    (computeWorkflowDiff cur edges currentName inc).modifiedNodes = [] ∧
    (computeWorkflowDiff cur edges currentName inc).addedConnections = 0 ∧
    (computeWorkflowDiff cur edges currentName inc).removedConnections = 0 ∧
    (computeWorkflowDiff cur edges currentName inc).nameChange = none := by
  have hids : inc.nodes.map WfNode.id = cur.map RFNode.id := by
    have := congrArg (List.map Prod.fst) hn
    rwa [List.map_map, List.map_map] at this
  have hA : addedNodesOf cur inc = [] := addedNodesOf_eq_nil cur inc hd hids
  have hR : removedNodesOf cur inc = [] := removedNodesOf_eq_nil cur inc hd hids
  have hM : modifiedNodesOf cur inc = [] := modifiedNodesOf_eq_nil cur inc hd hn
  have hAC : addedConnectionsOf edges inc = 0 := by
    unfold addedConnectionsOf incomingEdgeKeysOf currentEdgeKeysOf
    rw [he]
    exact filter_not_contains_self_length _
  have hRC : removedConnectionsOf edges inc = 0 := by
    unfold removedConnectionsOf incomingEdgeKeysOf currentEdgeKeysOf
    rw [he]
    exact filter_not_contains_self_length _
  have hname' : (currentName != inc.name) = false := by
    rw [hname]
    simp
  refine ⟨?_, ?_, ?_, ?_, ?_, ?_, ?_⟩
  · rw [computeWorkflowDiff_totalChanges, hA, hR, hM, hAC, hRC, hname']
    simp
  · rw [computeWorkflowDiff_addedNodes]; exact hA
  · rw [computeWorkflowDiff_removedNodes]; exact hR
  · rw [computeWorkflowDiff_modifiedNodes]; exact hM
  · rw [computeWorkflowDiff_addedConnections]; exact hAC
  · rw [computeWorkflowDiff_removedConnections]; exact hRC
  · rw [computeWorkflowDiff_nameChange, hname']
    simp

/-- C7: renaming the workflow from `A` to `B` while keeping the node and
connection content identical yields `nameChange = (A, B)` and
`totalChanges = 1` (the 1 being the name contribution of the sum). -/
theorem c7_rename_only_diff (cur : List RFNode) (edges : List RFEdge)
    (a b : String) (inc : WorkflowMsg)
    (hd : (cur.map RFNode.id).Nodup)
    (hn : inc.nodes.map (fun n => (n.id, Json.serialize n.data)) =
          cur.map (fun n => (n.id, Json.serialize n.data)))
    (he : inc.connections.map makeWorkflowEdgeKey = edges.map makeEdgeKey)
    (hb : inc.name = b) (hab : a ≠ b) :
    (computeWorkflowDiff cur edges a inc).nameChange = some (a, b) ∧
    (computeWorkflowDiff cur edges a inc).totalChanges = 1 := by
  have hids : inc.nodes.map WfNode.id = cur.map RFNode.id := by
    have := congrArg (List.map Prod.fst) hn
    rwa [List.map_map, List.map_map] at this
  have hA : addedNodesOf cur inc = [] := addedNodesOf_eq_nil cur inc hd hids
  have hR : removedNodesOf cur inc = [] := removedNodesOf_eq_nil cur inc hd hids
  have hM : modifiedNodesOf cur inc = [] := modifiedNodesOf_eq_nil cur inc hd hn
  have hAC : addedConnectionsOf edges inc = 0 := by
    unfold addedConnectionsOf incomingEdgeKeysOf currentEdgeKeysOf
    rw [he]
    exact filter_not_contains_self_length _
  have hRC : removedConnectionsOf edges inc = 0 := by
    unfold removedConnectionsOf incomingEdgeKeysOf currentEdgeKeysOf
    rw [he]
    exact filter_not_contains_self_length _
  have hname' : (a != inc.name) = true := by
    rw [hb]
    simpa using hab
  constructor
  · rw [computeWorkflowDiff_nameChange, hname']
    simp [hb]
  · rw [computeWorkflowDiff_totalChanges, hA, hR, hM, hAC, hRC, hname']
    simp

/-- C8: the diff summary reports `isNewWorkflow` exactly when the baseline
has at most 2 nodes, every baseline node's type is `start` or `end`, and
the baseline has zero connections. -/
theorem c8_isNewWorkflow_iff (cur : List RFNode) (edges : List RFEdge)
    (name : String) (inc : WorkflowMsg) :
    (computeWorkflowDiff cur edges name inc).isNewWorkflow = true ↔
      (cur.length ≤ 2 ∧
       (∀ n ∈ cur, n.type? = some ("start") ∨ n.type? = some ("end")) ∧
       edges.length = 0) := by
  rw [computeWorkflowDiff_isNewWorkflow]
  simp only [Bool.and_eq_true, decide_eq_true_eq, List.all_eq_true, Bool.or_eq_true,
    beq_iff_eq]
  tauto

/-- A shared node id is never reported added: the id has a baseline map
entry, so the added filter drops it. -/
theorem shared_id_not_in_addedNodes (cur : List RFNode) (inc : WorkflowMsg)
    (hd : (cur.map RFNode.id).Nodup) (hi : (inc.nodes.map WfNode.id).Nodup)
    (c : RFNode) (w : WfNode) (hc : c ∈ cur) (hw : w ∈ inc.nodes) (hid : c.id = w.id) :
    ¬(w.id ∈ (addedNodesOf cur inc).map DiffEntry.id) := by
  intro hmem
  rcases List.mem_map.mp hmem with ⟨e, he, heid⟩
  unfold addedNodesOf at he
  rw [incomingNodeMapOf_eq inc hi] at he
  rcases List.mem_filterMap.mp he with ⟨p, hp, hfp⟩
  rcases List.mem_map.mp hp with ⟨n, _, rfl⟩
  by_cases hk : hasKey (currentNodeMapOf cur) n.id = true
  · rw [if_pos hk] at hfp
    cases hfp
  · apply hk
    have hne : e.id = n.id := by
      rw [if_neg hk] at hfp
      cases hfp
      rfl
    rw [currentNodeMapOf_eq cur hd]
    refine (hasKey_pair_iff cur RFNode.id (fun x => x) n.id).mpr ⟨c, hc, ?_⟩
    rw [hid, ← heid, hne]

/-- A shared node id is never reported removed: the id has an incoming map
entry, so the removed filter drops it. -/
theorem shared_id_not_in_removedNodes (cur : List RFNode) (inc : WorkflowMsg)
    (hd : (cur.map RFNode.id).Nodup) (hi : (inc.nodes.map WfNode.id).Nodup)
    (c : RFNode) (w : WfNode) (hc : c ∈ cur) (hw : w ∈ inc.nodes) (hid : c.id = w.id) :
    ¬(w.id ∈ (removedNodesOf cur inc).map DiffEntry.id) := by
  intro hmem
  rcases List.mem_map.mp hmem with ⟨e, he, heid⟩
  unfold removedNodesOf at he
  rw [currentNodeMapOf_eq cur hd] at he
  rcases List.mem_filterMap.mp he with ⟨p, hp, hfp⟩
  rcases List.mem_map.mp hp with ⟨c2, _, rfl⟩
  by_cases hk : hasKey (incomingNodeMapOf inc) c2.id = true
  · rw [if_pos hk] at hfp
    cases hfp
  · apply hk
    have hne : e.id = c2.id := by
      rw [if_neg hk] at hfp
      cases hfp
      rfl
    rw [incomingNodeMapOf_eq inc hi]
    refine (hasKey_pair_iff inc.nodes WfNode.id mkIncomingEntry c2.id).mpr ⟨w, hw, ?_⟩
    rw [← hne, heid]

/-- A shared node id is reported modified exactly when the serialized data
payloads differ between the baseline node and the incoming node. -/
theorem shared_id_in_modifiedNodes_iff (cur : List RFNode) (inc : WorkflowMsg)
    (hd : (cur.map RFNode.id).Nodup) (hi : (inc.nodes.map WfNode.id).Nodup)
    (c : RFNode) (w : WfNode) (hc : c ∈ cur) (hw : w ∈ inc.nodes) (hid : c.id = w.id) :
    (w.id ∈ (modifiedNodesOf cur inc).map DiffEntry.id) ↔
      Json.serialize c.data ≠ Json.serialize w.data := by
  have hgetc : getKey (currentNodeMapOf cur) w.id = some c := by
    rw [currentNodeMapOf_eq cur hd, getKey_pair_self]
    have hf := find?_key_of_nodup cur RFNode.id hd c hc
    rwa [hid] at hf
  constructor
  · intro hmem
    rcases List.mem_map.mp hmem with ⟨e, he, heid⟩
    unfold modifiedNodesOf at he
    rw [incomingNodeMapOf_eq inc hi] at he
    rcases List.mem_filterMap.mp he with ⟨p, hp, hfp⟩
    rcases List.mem_map.mp hp with ⟨n, hn, rfl⟩
    dsimp only at hfp
    rcases hgc : getKey (currentNodeMapOf cur) n.id with _ | cc
    · rw [hgc] at hfp
      cases hfp
    · rw [hgc] at hfp
      dsimp only at hfp
      by_cases hbne : (Json.serialize cc.data != (mkIncomingEntry n).data) = true
      · rw [if_pos hbne] at hfp
        cases hfp
        have hnid : n.id = w.id := by simpa using heid
        have hnw : n = w := List.inj_on_of_nodup_map hi hn hw hnid
        subst hnw
        rw [hgetc] at hgc
        injection hgc with hcc
        subst hcc
        simpa [mkIncomingEntry] using hbne
      · rw [if_neg hbne] at hfp
        cases hfp
  · intro hdiff
    have hbne : (Json.serialize c.data != (mkIncomingEntry w).data) = true := by
      simpa [mkIncomingEntry] using hdiff
    refine List.mem_map.mpr
      ⟨⟨w.id, (mkIncomingEntry w).name, (mkIncomingEntry w).type⟩, ?_, rfl⟩
    unfold modifiedNodesOf
    rw [incomingNodeMapOf_eq inc hi]
    refine List.mem_filterMap.mpr ⟨(w.id, mkIncomingEntry w), List.mem_map_of_mem _ hw, ?_⟩
    dsimp only
    rw [hgetc]
    dsimp only
    rw [if_pos hbne]

/-- C9: for a node id present on both sides (ids unique on each side), the
diff never reports it added or removed, and reports it modified exactly
when `JSON.stringify` of the two data payloads differs; in particular a
shared node whose type, position or any other field outside `data` differs
while the data payloads serialize equally appears in none of the three node
lists. -/
theorem c9_shared_node_lists (cur : List RFNode) (edges : List RFEdge)
    (name : String) (inc : WorkflowMsg)
    (hd : (cur.map RFNode.id).Nodup) (hi : (inc.nodes.map WfNode.id).Nodup)
    (c : RFNode) (w : WfNode) (hc : c ∈ cur) (hw : w ∈ inc.nodes) (hid : c.id = w.id) :
    ¬(w.id ∈ ((computeWorkflowDiff cur edges name inc).addedNodes.map DiffEntry.id)) ∧
    ¬(w.id ∈ ((computeWorkflowDiff cur edges name inc).removedNodes.map DiffEntry.id)) ∧
    ((w.id ∈ ((computeWorkflowDiff cur edges name inc).modifiedNodes.map DiffEntry.id)) ↔
      Json.serialize c.data ≠ Json.serialize w.data) := by
  rw [computeWorkflowDiff_addedNodes, computeWorkflowDiff_removedNodes,
    computeWorkflowDiff_modifiedNodes]
  exact ⟨shared_id_not_in_addedNodes cur inc hd hi c w hc hw hid,
    shared_id_not_in_removedNodes cur inc hd hi c w hc hw hid,
    shared_id_in_modifiedNodes_iff cur inc hd hi c w hc hw hid⟩

/-! ## Concrete instances for the diff engine claims -/

/-- A sample node data payload. -/
def wNodeData : Json :=
  Json.obj [(("description"), Json.str ("Summarize input")), (("prompt"), Json.str ("Do it"))]

/-- Baseline nodes of the identity-diff instance. -/
def c1curW : List RFNode :=
  [⟨("start-1"), some ("start"), (100, 300), Json.obj [(("label"), Json.str ("Start"))]⟩,
   ⟨("p-1"), some ("prompt"), (350, 300), wNodeData⟩]

/-- Baseline edges of the identity-diff instance. -/
def c1edgesW : List RFEdge := [⟨("start-1"), ("p-1"), none, none⟩]

/-- Proposed workflow identical to the baseline (up to fields the diff
ignores). -/
def c1incW : WorkflowMsg :=
  { id := ("wf-1"), name := ("My Flow"),
    nodes := [⟨("start-1"), ("start"), (100, 300), Json.obj [(("label"), Json.str ("Start"))]⟩,
              ⟨("p-1"), ("prompt"), (9, 9), wNodeData⟩],
    connections := [⟨("start-1"), ("p-1"), (""), ("")⟩] }

/-- Witness for C1 at a concrete two-node workflow. -/
theorem c1_witness :
    (computeWorkflowDiff c1curW c1edgesW ("My Flow") c1incW).totalChanges = 0 ∧
    (computeWorkflowDiff c1curW c1edgesW ("My Flow") c1incW).addedNodes = [] ∧
    (computeWorkflowDiff c1curW c1edgesW ("My Flow") c1incW).removedNodes = [] ∧
    (computeWorkflowDiff c1curW c1edgesW ("My Flow") c1incW).modifiedNodes = [] ∧
    (computeWorkflowDiff c1curW c1edgesW ("My Flow") c1incW).addedConnections = 0 ∧
    (computeWorkflowDiff c1curW c1edgesW ("My Flow") c1incW).removedConnections = 0 ∧
    (computeWorkflowDiff c1curW c1edgesW ("My Flow") c1incW).nameChange = none :=
  c1_identical_proposal_diff_empty c1curW c1edgesW ("My Flow") c1incW (by decide) rfl rfl rfl

/-- The C1 instance renamed to `"B"`, nodes and connections untouched. -/
def c7incW : WorkflowMsg := { c1incW with name := ("B") }

/-- Witness for C7: the rename-only diff at a concrete workflow. -/
theorem c7_witness :
    (computeWorkflowDiff c1curW c1edgesW ("A") c7incW).nameChange = some (("A"), ("B")) ∧
    (computeWorkflowDiff c1curW c1edgesW ("A") c7incW).totalChanges = 1 :=
  c7_rename_only_diff c1curW c1edgesW ("A") ("B") c7incW (by decide) rfl rfl rfl (by decide)

/-- A bare start/end baseline. -/
def c8curW : List RFNode :=
  [⟨("start-1"), some ("start"), (0, 0), Json.obj []⟩,
   ⟨("end-1"), some ("end"), (500, 0), Json.obj []⟩]

/-- A non-trivial proposed workflow for the C8 instance. -/
def c8incW : WorkflowMsg :=
  { id := ("wf-8"), name := ("W"),
    nodes := [⟨("start-1"), ("start"), (0, 0), Json.obj []⟩,
              ⟨("p-1"), ("prompt"), (300, 0), wNodeData⟩,
              ⟨("end-1"), ("end"), (600, 0), Json.obj []⟩],
    connections := [⟨("start-1"), ("p-1"), (""), ("")⟩, ⟨("p-1"), ("end-1"), (""), ("")⟩] }

/-- Witness for C8: a bare start/end baseline with no connections reports a
new workflow. -/
theorem c8_witness :
    (computeWorkflowDiff c8curW [] ("W") c8incW).isNewWorkflow = true :=
  (c8_isNewWorkflow_iff c8curW [] ("W") c8incW).mpr (by decide)

/-- The shared baseline node of the C9 instance. -/
def c9cW : RFNode := ⟨("n-1"), some ("prompt"), (10, 20), wNodeData⟩

/-- The shared incoming node of the C9 instance: different type and
position, identical data payload. -/
def c9wW : WfNode := ⟨("n-1"), ("mcp"), (999, 0), wNodeData⟩

/-- Baseline of the C9 instance. -/
def c9curW : List RFNode := [c9cW]

/-- Proposed workflow of the C9 instance. -/
def c9incW : WorkflowMsg :=
  { id := ("wf-9"), name := ("F"), nodes := [c9wW], connections := [] }

/-- Witness for C9 at a concrete shared node whose type and position differ
while the data payload is identical. -/
theorem c9_witness :
    ¬(c9wW.id ∈ ((computeWorkflowDiff c9curW [] ("F") c9incW).addedNodes.map DiffEntry.id)) ∧
    ¬(c9wW.id ∈ ((computeWorkflowDiff c9curW [] ("F") c9incW).removedNodes.map DiffEntry.id)) ∧
    ((c9wW.id ∈ ((computeWorkflowDiff c9curW [] ("F") c9incW).modifiedNodes.map DiffEntry.id)) ↔
      Json.serialize c9cW.data ≠ Json.serialize c9wW.data) :=
  c9_shared_node_lists c9curW [] ("F") c9incW (by decide) (by decide)
    c9cW c9wW (List.mem_cons_self _ _) (List.mem_cons_self _ _) rfl

/-! ## C2: nested-flow prohibited node types -/

/-- C2: a parsed nested-flow fragment containing a node of a prohibited
type makes `refineSubAgentFlow` fail with `PROHIBITED_NODE_TYPE`, the
details listing that node's type and id, whatever the other nodes, the
skills flag or the catalogue are. -/
theorem c2_prohibited_node_type_error (flow : InnerWorkflow) (useSkills : Bool)
    (skills : List SkillReference) (n : WfdNode)
    (hn : n ∈ flow.nodes) (ht : n.type ∈ SUBAGENTFLOW_PROHIBITED_NODE_TYPES) :
    refineSubAgentFlowParsed flow useSkills skills =
      .failed
        { code := .PROHIBITED_NODE_TYPE,
          message :=
            ("Sub-Agent Flow cannot contain SubAgent, SubAgentFlow, or AskUserQuestion nodes"),
          details := some (("Prohibited nodes found: ") ++
            String.intercalate (", ") (validateSubAgentFlowNodes flow).prohibitedNodes) } ∧
    (n.type ++ (" (") ++ n.id ++ (")")) ∈ (validateSubAgentFlowNodes flow).prohibitedNodes := by
  have hmem : (n.type ++ (" (") ++ n.id ++ (")")) ∈
      (validateSubAgentFlowNodes flow).prohibitedNodes := by
    unfold validateSubAgentFlowNodes
    dsimp only
    refine List.mem_map.mpr ⟨n, ?_, rfl⟩
    rw [List.mem_filter]
    exact ⟨hn, List.elem_iff.mpr ht⟩
  have hlen : (validateSubAgentFlowNodes flow).prohibitedNodes.length ≠ 0 := by
    intro h0
    rw [List.length_eq_zero] at h0
    rw [h0] at hmem
    cases hmem
  have hvalid : (validateSubAgentFlowNodes flow).valid = false := by
    have hproj : (validateSubAgentFlowNodes flow).valid =
        ((validateSubAgentFlowNodes flow).prohibitedNodes.length == 0) := rfl
    rw [hproj, beq_eq_false_iff_ne]
    exact hlen
  refine ⟨?_, hmem⟩
  unfold refineSubAgentFlowParsed
  dsimp only
  rw [hvalid]
  rfl

/-- The C2 instance: one valid node, one prohibited node. -/
def c2flowW : InnerWorkflow :=
  { nodes := [⟨("s-1"), ("start"), []⟩, ⟨("bad-1"), ("askUserQuestion"), []⟩],
    connections := [] }

/-- The offending node of the C2 instance. -/
def c2badW : WfdNode := ⟨("bad-1"), ("askUserQuestion"), []⟩

/-- Witness for C2: a concrete fragment with a prohibited node fails with
`PROHIBITED_NODE_TYPE` and reports the offender. -/
theorem c2_witness :
    refineSubAgentFlowParsed c2flowW true [] =
      .failed
        { code := .PROHIBITED_NODE_TYPE,
          message :=
            ("Sub-Agent Flow cannot contain SubAgent, SubAgentFlow, or AskUserQuestion nodes"),
          details := some (("Prohibited nodes found: ") ++
            String.intercalate (", ") (validateSubAgentFlowNodes c2flowW).prohibitedNodes) } ∧
    (c2badW.type ++ (" (") ++ c2badW.id ++ (")")) ∈
      (validateSubAgentFlowNodes c2flowW).prohibitedNodes :=
  c2_prohibited_node_type_error c2flowW true [] c2badW
    (List.mem_cons_of_mem _ (List.mem_cons_self _ _)) (by decide)

/-! ## Lemmas about object update (`mapSet`) lookups -/

/-- In the overwrite branch of `mapSet`, `find?` by the written key returns
the written pair. -/
theorem find?_replace_self (m : List (String × α)) (k : String) (v : α)
    (h : m.any (fun p => p.1 == k) = true) :
    (m.map (fun p => if p.1 == k then (k, v) else p)).find? (fun p => p.1 == k) =
      some (k, v) := by
  induction m with
  | nil => cases h
  | cons a m ih =>
    cases ha : (a.1 == k) with
    | true =>
      rw [List.map_cons, if_pos ha, List.find?_cons_of_pos _ (by simp)]
    | false =>
      rw [List.map_cons, if_neg (by simp [ha]), List.find?_cons_of_neg _ (by simp [ha])]
      apply ih
      rcases List.any_eq_true.mp h with ⟨p, hp, hpk⟩
      rcases List.mem_cons.mp hp with h' | h'
      · rw [h'] at hpk
        rw [ha] at hpk
        cases hpk
      · exact List.any_eq_true.mpr ⟨p, h', hpk⟩

/-- In the overwrite branch of `mapSet`, `find?` by a different key is
unchanged. -/
theorem find?_replace_ne (m : List (String × α)) (k k2 : String) (v : α) (h : k2 ≠ k) :
    (m.map (fun p => if p.1 == k then (k, v) else p)).find? (fun p => p.1 == k2) =
      m.find? (fun p => p.1 == k2) := by
  induction m with
  | nil => rfl
  | cons a m ih =>
    cases ha : (a.1 == k) with
    | true =>
      have hak : a.1 = k := by simpa using ha
      have hk2 : ¬(k = k2) := fun hh => h hh.symm
      rw [List.map_cons, if_pos ha]
      rw [List.find?_cons_of_neg _ (by simpa using hk2)]
      rw [List.find?_cons_of_neg _ (by rw [hak]; simpa using hk2)]
      exact ih
    | false =>
      rw [List.map_cons, if_neg (by simp [ha])]
      cases ha2 : (a.1 == k2) with
      | true =>
        have h1 : List.find? (fun p => p.1 == k2)
            (a :: List.map (fun p => if (p.1 == k) = true then (k, v) else p) m) = some a :=
          List.find?_cons_of_pos _ ha2
        have h2 : List.find? (fun p => p.1 == k2) (a :: m) = some a :=
          List.find?_cons_of_pos _ ha2
        rw [h1, h2]
      | false =>
        rw [List.find?_cons_of_neg _ (by simp [ha2]), List.find?_cons_of_neg _ (by simp [ha2])]
        exact ih

/-- Looking up the key just written by `mapSet` yields the written value. -/
theorem getKey_mapSet_self (m : List (String × α)) (k : String) (v : α) :
    getKey (mapSet m k v) k = some v := by
  unfold mapSet getKey
  by_cases h : m.any (fun p => p.1 == k) = true
  · rw [if_pos h, find?_replace_self m k v h]
    rfl
  · rw [if_neg h, List.find?_append,
      List.find?_eq_none.mpr (fun x hx hpx => h (List.any_eq_true.mpr ⟨x, hx, hpx⟩))]
    simp [getKey, List.find?]

/-- Looking up a different key after `mapSet` is unchanged. -/
theorem getKey_mapSet_ne (m : List (String × α)) (k k2 : String) (v : α) (h : k2 ≠ k) :
    getKey (mapSet m k v) k2 = getKey m k2 := by
  unfold mapSet getKey
  by_cases hc : m.any (fun p => p.1 == k) = true
  · rw [if_pos hc, find?_replace_ne m k k2 v h]
  · rw [if_neg hc, List.find?_append]
    have hone : ([(k, v)].find? (fun p => p.1 == k2)) = none := by
      rw [List.find?_eq_none]
      intro x hx
      rw [List.mem_singleton] at hx
      subst hx
      have hne : ¬(k = k2) := fun hh => h hh.symm
      simpa using hne
    rw [hone]
    simp

/-! ## C3: skill reference resolution -/

/-- The node produced for a matched skill: the object spread re-stamps
`skillPath` and `validationStatus` from the catalogue entry. -/
def stampMatched (node : WfdNode) (matchedSkill : SkillReference) : WfdNode :=
  let stamped :=
    mapSet (mapSet node.data ("skillPath") (Json.str matchedSkill.skillPath))
      ("validationStatus") (Json.str matchedSkill.validationStatus)
  { node with data := stamped }

/-- The node produced for an unmatched skill: `validationStatus` becomes
`missing`, everything else untouched. -/
def stampMissing (node : WfdNode) : WfdNode :=
  { node with data := mapSet node.data ("validationStatus") (Json.str ("missing")) }

/-- Node list of the resolver as a map over the input nodes. -/
theorem resolveSkillPaths_nodes (wf : WorkflowD) (skills : List SkillReference) :
    (resolveSkillPaths wf skills).nodes = wf.nodes.map (fun node =>
      if node.type != ("skill") then node
      else
        match skills.find? (fun skill => skillMatches node.data skill) with
        | some matchedSkill => stampMatched node matchedSkill
        | none => stampMissing node) :=
  rfl

/-- A skill node of the C3 instance, invoking skill `deploy` at project
scope. -/
def c3nodeX : WfdNode :=
  ⟨("sk-1"), ("skill"), [(("name"), Json.str ("deploy")), (("scope"), Json.str ("project"))]⟩

/-- Workflow of the C3 instance. -/
def c3wfX : WorkflowD :=
  { id := ("wf-3"), name := ("F"), version := ("1.0.0"),
    nodes := [c3nodeX], connections := [], createdAt := 0, updatedAt := 0 }

/-- Catalogue of the C3 instance: the matching entry carries validation
status `unresolved`, not `valid`. -/
def c3catX : List SkillReference :=
  [⟨("deploy"), ("Deploy the app"), ("project"), ("/skills/deploy"), ("unresolved")⟩]

/-- Counterexample for C3 as stated: a catalogue entry with exactly
matching (name, scope) exists, yet the node is stamped with the entry's own
status `unresolved`, not with `valid` — the resolver copies
`matchedSkill.validationStatus` instead of writing the literal `valid`. -/
theorem c3_counterexample :
    ((resolveSkillPaths c3wfX c3catX).nodes.map
      (fun n => dataFieldStr n.data ("validationStatus"))) = [some ("unresolved")] ∧
    some (("unresolved") : String) ≠ some (("valid") : String) :=
  ⟨rfl, by decide⟩

/-- C3 (amended): the resolver keeps the node count (it never fails the
whole operation); every non-skill node passes through unchanged; a skill
node whose (name, scope) matches a catalogue entry is stamped with that
entry's resolved path *and that entry's own validation status* (`valid`
only when the catalogue says so); a skill node with no matching entry keeps
its path untouched and is stamped `missing`. -/
theorem c3_resolver_amended (wf : WorkflowD) (skills : List SkillReference)
    (i : Nat) (n : WfdNode) (h : wf.nodes.get? i = some n) :
    (resolveSkillPaths wf skills).nodes.length = wf.nodes.length ∧
    ∃ n2, (resolveSkillPaths wf skills).nodes.get? i = some n2 ∧
      (n.type ≠ ("skill") → n2 = n) ∧
      (n.type = ("skill") →
        match skills.find? (fun skill => skillMatches n.data skill) with
        | some matchedSkill =>
          n2.id = n.id ∧ n2.type = n.type ∧
          dataFieldStr n2.data ("skillPath") = some matchedSkill.skillPath ∧
          dataFieldStr n2.data ("validationStatus") = some matchedSkill.validationStatus
        | none =>
          n2.id = n.id ∧ n2.type = n.type ∧
          dataFieldStr n2.data ("validationStatus") = some ("missing") ∧
          getKey n2.data ("skillPath") = getKey n.data ("skillPath")) := by
  rw [resolveSkillPaths_nodes]
  refine ⟨List.length_map _ _, ?_⟩
  rw [List.get?_map, h]
  simp only [Option.map_some']
  by_cases hskill : n.type = ("skill")
  · have hbne : (n.type != ("skill")) = false := by simp [hskill]
    cases hfind : skills.find? (fun skill => skillMatches n.data skill) with
    | some matchedSkill =>
      refine ⟨stampMatched n matchedSkill, ?_, ?_, ?_⟩
      · rw [hbne]
        rfl
      · intro hne
        exact absurd hskill hne
      · intro _
        dsimp only
        refine ⟨rfl, rfl, ?_, ?_⟩
        · unfold dataFieldStr stampMatched
          rw [getKey_mapSet_ne _ _ _ _ (by decide), getKey_mapSet_self]
        · unfold dataFieldStr stampMatched
          rw [getKey_mapSet_self]
    | none =>
      refine ⟨stampMissing n, ?_, ?_, ?_⟩
      · rw [hbne]
        rfl
      · intro hne
        exact absurd hskill hne
      · intro _
        dsimp only
        refine ⟨rfl, rfl, ?_, ?_⟩
        · unfold dataFieldStr stampMissing
          rw [getKey_mapSet_self]
        · exact getKey_mapSet_ne _ _ _ _ (by decide)
  · have hbt : (n.type != ("skill")) = true := by simpa using hskill
    refine ⟨n, ?_, fun _ => rfl, fun hsk => absurd hsk hskill⟩
    rw [hbt]
    rfl

/-- Witness for C3 (amended) at the concrete instance: the skill node at
index 0 resolves against the matching catalogue entry. -/
theorem c3_witness :
    (resolveSkillPaths c3wfX c3catX).nodes.length = c3wfX.nodes.length ∧
    ∃ n2, (resolveSkillPaths c3wfX c3catX).nodes.get? 0 = some n2 ∧
      (c3nodeX.type ≠ ("skill") → n2 = c3nodeX) ∧
      (c3nodeX.type = ("skill") →
        match c3catX.find? (fun skill => skillMatches c3nodeX.data skill) with
        | some matchedSkill =>
          n2.id = c3nodeX.id ∧ n2.type = c3nodeX.type ∧
          dataFieldStr n2.data ("skillPath") = some matchedSkill.skillPath ∧
          dataFieldStr n2.data ("validationStatus") = some matchedSkill.validationStatus
        | none =>
          n2.id = c3nodeX.id ∧ n2.type = c3nodeX.type ∧
          dataFieldStr n2.data ("validationStatus") = some ("missing") ∧
          getKey n2.data ("skillPath") = getKey c3nodeX.data ("skillPath")) :=
  c3_resolver_amended c3wfX c3catX 0 c3nodeX rfl

/-! ## C4: clarification classification short-circuits parsing -/

/-- C4: when any clarification pattern matches the fence-stripped,
lowercased output, the orchestrator returns the extracted clarification —
for every JSON parser and every downstream pipeline stage, i.e. without JSON
parsing being attempted and even when a valid workflow JSON follows the
prose. -/
theorem c4_clarification_short_circuits (jsonParse : String → Option Json)
    (finishRefinement : Json → RefinementOutcome) (output : String)
    (hm : clarificationPatternList.any
      (fun patAt => matchSomewhere patAt ((stripJsonFences output.data).map Char.toLower)) =
      true) :
    refineWorkflowFromOutput jsonParse finishRefinement output =
      .clarified (extractClarificationMessage output) := by
  have hcl : isClarificationMessage output = true := hm
  unfold refineWorkflowFromOutput
  rw [if_pos hcl]

/-- Output of the C4 instance: clarification prose followed by a fenced
workflow JSON object. -/
def c4outputW : String :=
  ("Could you clarify which node you mean?\n```json\n\x7b\"id\": \"wf-1\"\x7d\n```")

/-- A parser for the C4 instance that does produce a shape-valid workflow
value. -/
def c4parseW : String → Option Json := fun _ =>
  some (Json.obj [(("id"), Json.str ("wf-1")), (("nodes"), Json.arr []),
                  (("connections"), Json.arr [])])

/-- A downstream stage for the C4 instance that would accept the parsed
workflow. -/
def c4finishW : Json → RefinementOutcome := RefinementOutcome.succeeded

/-- Witness for C4: the concrete output classifies as clarification (its
prose survives, the fenced JSON is stripped) even though a valid workflow
JSON follows and the supplied parser would accept it. -/
theorem c4_witness :
    refineWorkflowFromOutput c4parseW c4finishW c4outputW =
      .clarified (extractClarificationMessage c4outputW) ∧
    extractClarificationMessage c4outputW = ("Could you clarify which node you mean?") :=
  ⟨c4_clarification_short_circuits c4parseW c4finishW c4outputW (by decide), rfl⟩

/-! ## C5, C6, C10: process runner -/

/-- Deleting from an empty registry is a no-op. -/
theorem deleteRegistry_nil (requestId : Option String) : deleteRegistry [] requestId = [] := by
  cases requestId <;> rfl

/-- Once the promise is resolved and the registry entry gone, no further
event changes either. -/
theorem execStep_preserves_terminal (requestId : Option String) (startTime timeoutMs : Nat)
    (s : ExecState) (now : Nat) (e : ProcEvent) (r : CliResult)
    (hres : s.resolved = some r) (hreg : s.registry = []) :
    (execStep requestId startTime timeoutMs s now e).resolved = some r ∧
    (execStep requestId startTime timeoutMs s now e).registry = [] := by
  cases e with
  | stdoutChunk chunk => exact ⟨hres, hreg⟩
  | stderrChunk chunk => exact ⟨hres, hreg⟩
  | timerFire =>
    unfold execStep resolveOnce
    by_cases ha : s.timerArmed = true
    · simp [ha, hres, hreg, deleteRegistry_nil]
    · simp only [Bool.not_eq_true] at ha
      simp [ha, hres, hreg]
  | procError errCode errMessage =>
    unfold execStep resolveOnce
    by_cases ht : s.timedOut = true
    · simp [ht, hres, hreg, deleteRegistry_nil]
    · simp only [Bool.not_eq_true] at ht
      simp [ht, hres, hreg, deleteRegistry_nil]
  | procExit code =>
    unfold execStep resolveOnce
    by_cases ht : s.timedOut = true
    · simp [ht, hres, hreg, deleteRegistry_nil]
    · simp only [Bool.not_eq_true] at ht
      simp [ht, hres, hreg, deleteRegistry_nil]

/-- Folding any event trace over a resolved state with an empty registry
changes neither. -/
theorem runExecEvents_preserves_terminal (requestId : Option String)
    (startTime timeoutMs : Nat) (events : List (Nat × ProcEvent)) :
    ∀ (s : ExecState) (r : CliResult), s.resolved = some r → s.registry = [] →
      (runExecEvents requestId startTime timeoutMs s events).resolved = some r ∧
      (runExecEvents requestId startTime timeoutMs s events).registry = [] := by
  induction events with
  | nil => intro s r h1 h2; exact ⟨h1, h2⟩
  | cons e evs ih =>
    intro s r h1 h2
    have hstep := execStep_preserves_terminal requestId startTime timeoutMs s e.1 e.2 r h1 h2
    unfold runExecEvents at ih ⊢
    rw [List.foldl_cons]
    exact ih _ r hstep.1 hstep.2

/-- Firing the armed timeout resolves with `TIMEOUT` and unregisters. -/
theorem execStep_timerFire_from_init (requestId : String) (startTime timeoutMs tFire : Nat) :
    execStep (some requestId) startTime timeoutMs
      (initExecState (some requestId) startTime) tFire ProcEvent.timerFire =
    { stdoutBuf := "", stderrBuf := "", timedOut := true, timerArmed := false,
      resolved := some (timeoutResult timeoutMs (tFire - startTime)), registry := [] } := by
  unfold execStep initExecState resolveOnce deleteRegistry
  simp

/-- C5: when the timeout fires first, the run resolves exactly once, with
the `TIMEOUT` error result; every later process event (exit, error, late
data) leaves the resolution unchanged and the registry stays empty, so a
subsequent cancel for the same correlation id reports `cancelled: false`. -/
theorem c5_timeout_resolution_is_final (requestId : String)
    (startTime timeoutMs tFire tCancel : Nat) (events : List (Nat × ProcEvent)) :
    (runExecEvents (some requestId) startTime timeoutMs
      (execStep (some requestId) startTime timeoutMs
        (initExecState (some requestId) startTime) tFire ProcEvent.timerFire)
      events).resolved = some (timeoutResult timeoutMs (tFire - startTime)) ∧
    (runExecEvents (some requestId) startTime timeoutMs
      (execStep (some requestId) startTime timeoutMs
        (initExecState (some requestId) startTime) tFire ProcEvent.timerFire)
      events).registry = [] ∧
    (cancelGeneration
      (runExecEvents (some requestId) startTime timeoutMs
        (execStep (some requestId) startTime timeoutMs
          (initExecState (some requestId) startTime) tFire ProcEvent.timerFire)
        events).registry requestId tCancel).1.cancelled = false := by
  rw [execStep_timerFire_from_init]
  have hpres := runExecEvents_preserves_terminal (some requestId) startTime timeoutMs events
    { stdoutBuf := "", stderrBuf := "", timedOut := true, timerArmed := false,
      resolved := some (timeoutResult timeoutMs (tFire - startTime)), registry := [] }
    (timeoutResult timeoutMs (tFire - startTime)) rfl rfl
  refine ⟨hpres.1, hpres.2, ?_⟩
  rw [hpres.2]
  rfl

/-- C6 (amended): a non-zero exit code on an attempt that has not timed out
(and is still pending) resolves with `success = false` and
`UNKNOWN_ERROR`, the details embedding the exit code and the *entire*
captured stderr. -/
theorem c6_nonzero_exit_unknown_error (requestId : Option String)
    (startTime timeoutMs now : Nat) (s : ExecState) (code : Int)
    (hto : s.timedOut = false) (hres : s.resolved = none) (hc : code ≠ 0) :
    (execStep requestId startTime timeoutMs s now (ProcEvent.procExit (some code))).resolved =
      some
        { success := false,
          output := none,
          error := some
            { code := .UNKNOWN_ERROR,
              message := ("Generation failed - please try again or rephrase your description"),
              details := some (("Exit code: ") ++ toString code ++ (", stderr: ") ++
                s.stderrBuf) },
          executionTimeMs := now - startTime } := by
  unfold execStep resolveOnce procExitResult
  have hcode : (some code == some 0) = false := by
    simp [hc]
  simp [hto, hres, hcode]

/-- Details of the resolved error of an execution state, when any. -/
def resolvedErrorDetails (s : ExecState) : Option String :=
  match s.resolved with
  | some r =>
    (match r.error with
     | some err => err.details
     | none => none)
  | none => none

/-- A 300-character stderr stream. -/
def c6stderrW : String := String.mk (List.replicate 300 ('e'))

/-- Event trace of the C6 instance: a long stderr chunk, then exit code 1. -/
def c6eventsW : List (Nat × ProcEvent) :=
  [(50, ProcEvent.stderrChunk c6stderrW), (60, ProcEvent.procExit (some 1))]

/-- Final state of the C6 instance. -/
def c6finalW : ExecState :=
  runExecEvents (some ("req-6")) 0 90000 (initExecState (some ("req-6")) 0) c6eventsW

set_option maxRecDepth 16384 in
/-- Counterexample for C6 as stated: after a non-zero exit with 300
characters of stderr, the error details embed the *entire* captured stderr
— they are not the 200-character prefix the claim's "bounded to a small
prefix" wording describes (only the log line truncates to 200). -/
theorem c6_counterexample :
    resolvedErrorDetails c6finalW = some (("Exit code: 1, stderr: ") ++ c6stderrW) ∧
    c6stderrW.length = 300 ∧
    (("Exit code: 1, stderr: ") ++ c6stderrW) ≠
      (("Exit code: 1, stderr: ") ++ String.mk (c6stderrW.data.take 200)) :=
  ⟨rfl, rfl, by decide⟩

/-- State of the C6 instance after the stderr chunk, before exit. -/
def c6midW : ExecState :=
  runExecEvents (some ("req-6")) 0 90000 (initExecState (some ("req-6")) 0)
    [(50, ProcEvent.stderrChunk c6stderrW)]

set_option maxRecDepth 16384 in
/-- Witness for C6 (amended) at the concrete pre-exit state. -/
theorem c6_witness :
    (execStep (some ("req-6")) 0 90000 c6midW 60 (ProcEvent.procExit (some 1))).resolved =
      some
        { success := false,
          output := none,
          error := some
            { code := .UNKNOWN_ERROR,
              message := ("Generation failed - please try again or rephrase your description"),
              details := some (("Exit code: ") ++ toString (1 : Int) ++ (", stderr: ") ++
                c6midW.stderrBuf) },
          executionTimeMs := 60 - 0 } :=
  c6_nonzero_exit_unknown_error (some ("req-6")) 0 90000 60 c6midW 1 rfl rfl (by decide)

/-- C10: `cancelGeneration` and `cancelRefinement` agree on every registry
state and request id — same result, same registry mutation, same signals:
an absent id reports `cancelled: false` untouched; a present id gets
`SIGTERM`, a `SIGKILL` scheduled after the 500 ms grace period, its entry
deleted, and reports `cancelled: true` with the elapsed time. -/
theorem c10_cancel_functions_agree (activeProcesses : List (String × Nat))
    (requestId : String) (now : Nat) :
    cancelGeneration activeProcesses requestId now =
      cancelRefinement activeProcesses requestId now ∧
    (getKey activeProcesses requestId = none →
      cancelGeneration activeProcesses requestId now =
        ({ cancelled := false, executionTimeMs := none }, activeProcesses, [])) ∧
    (∀ startTime, getKey activeProcesses requestId = some startTime →
      cancelGeneration activeProcesses requestId now =
        ({ cancelled := true, executionTimeMs := some (now - startTime) },
         activeProcesses.filter (fun p => p.1 != requestId),
         [SigAction.sigterm, SigAction.sigkillAfterGraceIfAlive 500])) := by
  refine ⟨rfl, ?_, ?_⟩
  · intro h
    unfold cancelGeneration
    rw [h]
  · intro startTime h
    unfold cancelGeneration
    rw [h]

/-- Witness for C10 at a concrete one-entry registry. -/
theorem c10_witness :
    cancelGeneration [(("r-1"), 5)] ("r-1") 20 = cancelRefinement [(("r-1"), 5)] ("r-1") 20 ∧
    cancelGeneration [(("r-1"), 5)] ("r-1") 20 =
      ({ cancelled := true, executionTimeMs := some 15 }, [],
       [SigAction.sigterm, SigAction.sigkillAfterGraceIfAlive 500]) := by
  have h := c10_cancel_functions_agree [(("r-1"), 5)] ("r-1") 20
  refine ⟨h.1, ?_⟩
  rw [h.2.2 5 rfl]
  rfl
